import Mathlib

/-!
Verification development for the benchmark orchestration script
`performance_test.py` of the ChargedParticles project.

The script is embedded shallowly: its pure computations (aggregation of
repetition times, stdout parsing, CSV row construction) become Lean
functions on `ℚ` (Python floats are modelled as exact rationals; float
rounding plays no role in any property below), and its stateful parts
(worker-pool lifecycle, the sweep loops, the try/finally cleanup of
`run_all_tests`) become explicit state-passing functions and small trace
models.  Numbers of repetitions, control values etc. are `Nat`.
-/

namespace PerfTest

/-! ## Aggregation: `statistics.mean` / `statistics.stdev` as used at
`fixed_particles_test` lines 219-220 (`avg_time = statistics.mean(times)`,
`std_dev = statistics.stdev(times) if len(times) > 1 else 0`). -/

/-- Arithmetic mean, the semantics of `statistics.mean` on a nonempty list.
For an empty list the Lean function returns `0` (division by zero in `ℚ`);
the script only calls it under `len(times) > 0`. -/
def mean (ts : List ℚ) : ℚ := ts.sum / ts.length

/-- Sample variance with Bessel correction, the quantity under the square
root in `statistics.stdev`.  Only meaningful for lists of length ≥ 2. -/
def sampleVar (ts : List ℚ) : ℚ :=
  (ts.map (fun x => (x - mean ts) ^ 2)).sum / ((ts.length : ℚ) - 1)

/-- The `std_dev` value stored by the script:
`statistics.stdev(times) if len(times) > 1 else 0`. -/
noncomputable def stdDev (ts : List ℚ) : ℝ :=
  if 1 < ts.length then Real.sqrt (sampleVar ts) else 0

/-- Modelled from the spec: the "sample standard deviation" of a list of
times, written directly from the spec's words (square root of the sum of
squared deviations from the mean divided by k - 1), for comparison with
the script's `stdDev`. -/
noncomputable def specSampleStdDev (ts : List ℚ) : ℝ :=
  Real.sqrt (((ts.map (fun x => (x - ts.sum / ts.length) ^ 2)).sum /
    ((ts.length : ℚ) - 1) : ℚ))

/-! ## Parsing the elapsed-time marker out of captured stdout
(`run_simulation`, lines 138-146). -/

/-- The fixed textual marker searched for in the driver's stdout,
as a character list (`String` functions of the core library recurse by
well-founded measures and do not reduce definitionally, so the whole
scanner works on `List Char`; `String.data` is the boundary). -/
def markerChars : List Char :=
  ['E', 'l', 'a', 'p', 's', 'e', 'd', ' ', 't', 'i', 'm', 'e', ':']

/-- Split a character list at every occurrence of a single separator
character, keeping empty pieces — the semantics of Python's
`s.split(sep)` for a one-character separator, used for
`result.stdout.split(chr(10))`. -/
def splitOnChar (sep : Char) : List Char → List (List Char)
  | [] => [[]]
  | c :: cs =>
      match splitOnChar sep cs with
      | [] => [[]]
      | h :: t => if c = sep then [] :: h :: t else (c :: h) :: t

/-- Boolean prefix test on character lists. -/
def leadsWith : List Char → List Char → Bool
  | [], _ => true
  | _ :: _, [] => false
  | a :: as, b :: bs => a = b && leadsWith as bs

/-- Left-to-right, non-overlapping split at every occurrence of a
multi-character separator — the semantics of Python's `s.split(sep)`,
used for `line.split("Elapsed time:")`.  Fuel-indexed on the input
length: each step either consumes the separator (length ≥ 1 here) or
one character, so fuel `s.length` never runs out; the fuel-exhaustion
arm is unreachable. -/
def splitOnListAux (sep : List Char) : Nat → List Char → List Char →
    List (List Char)
  | _, [], acc => [acc.reverse]
  | 0, s, acc => [acc.reverse ++ s]
  | fuel + 1, c :: rest, acc =>
      if leadsWith sep (c :: rest) then
        acc.reverse :: splitOnListAux sep fuel ((c :: rest).drop sep.length) []
      else splitOnListAux sep fuel rest (c :: acc)

/-- Python `s.split(sep)` for a nonempty separator (Python raises on an
empty one; the script's separator is the fixed marker). -/
def splitOnList (sep s : List Char) : List (List Char) :=
  if sep.isEmpty then [s] else splitOnListAux sep s.length s []

/-- Python's `"Elapsed time:" in line` test: splitting on the marker
yields more than one piece exactly when the marker occurs. -/
def containsMarker (line : List Char) : Bool :=
  (splitOnList markerChars line).length != 1

/-- Split at every character satisfying a predicate, keeping empty
pieces. -/
def splitByPred (p : Char → Bool) : List Char → List (List Char)
  | [] => [[]]
  | c :: cs =>
      match splitByPred p cs with
      | [] => [[]]
      | h :: t => if p c then [] :: h :: t else (c :: h) :: t

/-- Python's argument-free `str.split()`: split on every whitespace
character and drop empty pieces, which collapses whitespace runs. -/
def pySplit (s : List Char) : List (List Char) :=
  (splitByPred Char.isWhitespace s).filter (fun t => !t.isEmpty)

/-- Python's `str.strip()`: drop leading and trailing whitespace. -/
def pyStrip (s : List Char) : List Char :=
  ((s.dropWhile Char.isWhitespace).reverse.dropWhile Char.isWhitespace).reverse

/-- Value of a digit string read left to right, as a natural number
(every character fed to it has code point at least 48). -/
def digitsNat (cs : List Char) : Nat :=
  cs.foldl (fun a c => a * 10 + (c.toNat - 48)) 0

/-- Value of a digit string read left to right, as a rational. -/
def digitsVal (cs : List Char) : ℚ := (digitsNat cs : ℚ)

/-- Model of Python's `float(s)` on the decimal forms relevant here:
optional sign, then digits with an optional decimal point, at least one
digit overall.  Exponent, `inf`/`nan` and underscore forms of Python's
parser are not modelled; the driver's fixed-format marker never emits
them and no claim depends on them.  Returns `none` where `float` raises
`ValueError`.  First, the optional leading sign: -/
def pyFloatSign (cs : List Char) : ℚ × List Char :=
  match cs with
  | [] => (1, [])
  | c :: rest =>
      if c = '-' then (-1, rest)
      else if c = '+' then (1, rest)
      else (1, c :: rest)

/-- Digits-with-optional-point part of `pyFloat`: `body` is the input
after the sign; its leading digit run is the integer part, and what
follows must be empty or a point followed by digits. -/
def pyFloatBody (sign : ℚ) (body : List Char) : Option ℚ :=
  match body.dropWhile Char.isDigit with
  | [] =>
      if (body.takeWhile Char.isDigit).isEmpty then none
      else some (sign * digitsVal (body.takeWhile Char.isDigit))
  | c :: frac =>
      if c = '.' then
        if frac.all Char.isDigit &&
            !((body.takeWhile Char.isDigit).isEmpty && frac.isEmpty) then
          some (sign * (digitsVal (body.takeWhile Char.isDigit) +
            digitsVal frac / 10 ^ frac.length))
        else none
      else none

/-- Python's `float` on sign-plus-decimal forms: see `pyFloatSign`. -/
def pyFloat (cs : List Char) : Option ℚ :=
  pyFloatBody (pyFloatSign cs).1 (pyFloatSign cs).2

/-- One scan step per stdout line.  On the first line containing the
marker, the script evaluates
`line.split("Elapsed time:")[1].strip().split()[0]` and passes it to
`float`; an `IndexError` (no token after the marker) or `ValueError`
(unparsable token) raised there is caught by the enclosing
`except Exception` of `run_simulation`, so the whole extraction yields
`none` without scanning further lines. -/
def extractFromLines : List (List Char) → Option ℚ
  | [] => none
  | l :: ls =>
      if containsMarker l then
        match (splitOnList markerChars l).get? 1 with
        | none => none
        | some afterMarker =>
            match (pySplit (pyStrip afterMarker)).head? with
            | none => none
            | some tok => pyFloat tok
      else extractFromLines ls

/-- The measurement extraction of `run_simulation` on captured stdout:
split on newlines, scan for the elapsed-time marker. -/
def extractElapsed (stdout : String) : Option ℚ :=
  extractFromLines (splitOnChar '\n' stdout.data)

/-! ## The driver process and `run_simulation` (lines 111-153). -/

/-- What happened to one `subprocess.run` of the driver: it timed out
(`subprocess.TimeoutExpired`), the launch itself raised (caught by the
generic `except Exception`), or it exited with a return code and captured
stdout. -/
inductive DriverResult where
  | timedOut
  | launchError
  | exited (returncode : Int) (stdout : String)
deriving DecidableEq

/-- The body of `run_simulation`'s try block: nonzero exit → `None`,
timeout → `None`, launch exception → `None`, zero exit → scan stdout for
the elapsed-time marker (itself `None` when the marker is absent or its
token unparsable). -/
def run_simulation_outcome : DriverResult → Option ℚ
  | .timedOut => none
  | .launchError => none
  | .exited rc out => if rc ≠ 0 then none else extractElapsed out

/-! ## Worker pool (`start_worker` lines 68-94, the distributed branch of
`run_simulation` lines 113-120, `stop_worker` lines 96-109). -/

/-- One worker process as the script can observe it: whether `poll()`
reports it dead right after the 0.5 s probe sleep, and whether it exits
within 5 s of `terminate()` (otherwise `wait(timeout=5)` raises and the
script escalates to `kill()`). -/
structure WorkerHandle where
  diedImmediately : Bool
  respondsToTerm : Bool
deriving DecidableEq

/-- How spawning one worker behaves: `Popen` succeeds and the worker
stays alive through the probe, it exits immediately (the probe's
`poll() is not None` fires), or `Popen` itself raises — `start_worker`
has no try/except, so that exception propagates. -/
inductive WorkerBehavior where
  | ok
  | diesEarly
  | spawnRaises
deriving DecidableEq

/-- Result of `start_worker`: the returned boolean together with the
final contents of `self.worker_processes`, or an uncaught exception
(`raised`) with the contents at the moment of the raise. -/
inductive StartResult where
  | raised (pool : List WorkerHandle)
  | failed (pool : List WorkerHandle)
  | ok (pool : List WorkerHandle)
deriving DecidableEq

/-- The `for i in range(4)` loop of `start_worker`: each iteration
appends the freshly spawned worker to `self.worker_processes` and then
probes it; a dead worker makes the function return `False` at once, with
every handle spawned so far (the dead one included) still recorded. -/
def startWorkerAux (beh : Nat → WorkerBehavior) :
    Nat → Nat → List WorkerHandle → StartResult
  | 0, _, acc => .ok acc
  | n + 1, i, acc =>
      match beh i with
      | .spawnRaises => .raised acc
      | .diesEarly => .failed (acc ++ [⟨true, true⟩])
      | .ok => startWorkerAux beh n (i + 1) (acc ++ [⟨false, true⟩])

/-- The function `start_worker`: resets `self.worker_processes` to `[]`, then spawns
4 workers, probing each. -/
def start_worker (beh : Nat → WorkerBehavior) : StartResult :=
  startWorkerAux beh 4 0 []

/-- Result of one call to `run_simulation`'s distributed entry: either
the call raised (pool left as recorded), or it returned an outcome; the
flag records whether the master driver process was actually launched
against the pool. -/
inductive SimResult where
  | raised (pool : Option (List WorkerHandle))
  | returned (r : Option ℚ) (pool : Option (List WorkerHandle))
      (launchedDriver : Bool)
deriving DecidableEq

/-- The pool-gating logic of `run_simulation` for `mode == "distributed"`
(lines 113-120): the pool is (re)started only when the attribute
`worker_processes` is unset (`st = none`) or the list is empty; in every
other case — a nonempty list of handles, dead or alive — the master
driver is launched against it.  `driver` is the outcome the subsequent
`subprocess.run` of the master would produce. -/
def runSimDistributed (st : Option (List WorkerHandle))
    (beh : Nat → WorkerBehavior) (driver : DriverResult) : SimResult :=
  let needStart : Bool :=
    match st with
    | none => true
    | some procs => procs.isEmpty
  if needStart then
    match start_worker beh with
    | .raised p => .raised (some p)
    | .failed p => .returned none (some p) false
    | .ok p => .returned (run_simulation_outcome driver) (some p) true
  else .returned (run_simulation_outcome driver) st true

/-- Mode string constant. -/
def distributedMode : String := "distributed"

/-- The function `run_simulation` at its interface, for any mode string: distributed
mode goes through the pool gate; every other mode runs the driver
directly inside the try block. -/
def run_simulation (mode : String) (st : Option (List WorkerHandle))
    (beh : Nat → WorkerBehavior) (driver : DriverResult) : SimResult :=
  if mode = distributedMode then runSimDistributed st beh driver
  else .returned (run_simulation_outcome driver) st true

/-! ## The sweep loops (`fixed_particles_test` lines 199-246 and
`fixed_cycles_test` lines 257-304).  Both have the same shape: a while
loop over the control value, an inner `for run in range(runs)` loop
collecting successful times, aggregation, a break when all runs failed
or when the mean exceeds the runtime budget, otherwise
`value += increment`.  We model the loop generically over the plan
parameters; the two tests are instances.  An abstract oracle
`o : Nat → Nat → Option ℚ` gives the outcome of `run_simulation` at
control value `v`, repetition index `r` (`none` = failed repetition). -/

/-- The inner repetition loop at one control value: repetitions are
attempted at indices `0, 1, ..., runs-1` in that order regardless of
earlier failures, and the successful times are collected in order. -/
def runPoint (o : Nat → Nat → Option ℚ) (runs v : Nat) : List ℚ :=
  (List.range runs).filterMap (o v)

/-- Plan parameters of one sweep, mirroring the `FIXED_PARTICLES_TEST` /
`FIXED_CYCLES_TEST` configuration dictionaries. -/
structure SweepPlan where
  start : Nat
  increment : Nat
  upperBound : Nat
  runs : Nat
  budget : ℚ
deriving DecidableEq

/-- Configuration `FIXED_PARTICLES_TEST`: cycles swept from 500 by 500 up to 10000,
3 runs per configuration, 180 s budget. -/
def FIXED_PARTICLES_TEST : SweepPlan :=
  { start := 500, increment := 500, upperBound := 10000,
    runs := 3, budget := 180 }

/-- Configuration `FIXED_CYCLES_TEST`: particles swept from 500 by 500 up to 5000,
3 runs per configuration, 180 s budget. -/
def FIXED_CYCLES_TEST : SweepPlan :=
  { start := 500, increment := 500, upperBound := 5000,
    runs := 3, budget := 180 }

/-- The while loop, fuel-indexed (the fuel only bounds the recursion; the
top-level entry supplies enough of it).  Each evaluated control value
contributes the pair `(value, successful times)` to the trace.  The three
exits of the loop body are exactly the script's: all runs failed →
record the point (nothing is appended to `self.results`!) and break;
mean over budget → record the point (a summary IS appended) and break;
otherwise continue at `value + increment`.  The loop condition is
`value <= upperBound`. -/
def sweepTrace (o : Nat → Nat → Option ℚ) (p : SweepPlan) :
    Nat → Nat → List (Nat × List ℚ)
  | 0, _ => []
  | fuel + 1, v =>
      if v ≤ p.upperBound then
        if (runPoint o p.runs v).isEmpty then [(v, runPoint o p.runs v)]
        else if p.budget < mean (runPoint o p.runs v) then
          [(v, runPoint o p.runs v)]
        else (v, runPoint o p.runs v) :: sweepTrace o p fuel (v + p.increment)
      else []

/-- A full sweep for one strategy: run the while loop from `p.start`.
Fuel `p.upperBound + 1` suffices because each iteration consumes one
unit and (for positive increment) moves the value up by at least one. -/
def sweep (o : Nat → Nat → Option ℚ) (p : SweepPlan) :
    List (Nat × List ℚ) :=
  sweepTrace o p (p.upperBound + 1) p.start

/-- One record appended to `self.results`: the swept value, the list of
successful run times, and the stored `average_time`.  (`std_dev` is the
derived `stdDev` of the stored times — see `stdDev`.) -/
structure Summary where
  value : Nat
  run_times : List ℚ
  average_time : ℚ
deriving DecidableEq

/-- The summaries actually appended to `self.results` during a sweep:
one per evaluated point with at least one successful run — an all-failed
point only prints a message and breaks, appending nothing. -/
def emitted (trace : List (Nat × List ℚ)) : List Summary :=
  trace.filterMap (fun q =>
    if q.2.isEmpty then none
    else some ⟨q.1, q.2, mean q.2⟩)

/-! ## `save_results` (lines 306-336): one CSV row per result record,
columns `mode, particles, cycles, run_time_1..3, average_time, std_dev`,
missing run-time slots padded with `None` (csv writes it as the empty
cell — the absent-value marker), file opened with mode string `'a'`
(append). -/

/-- One CSV cell at the level of abstraction of `csv.writer`: the typed
value handed to `writerow` before text serialisation.  `absent` is the
Python `None` padding value. -/
inductive Cell where
  | str (s : String)
  | nat (n : Nat)
  | rat (q : ℚ)
  | real (x : ℝ)
  | absent

/-- One entry of `self.results` as `save_results` consumes it. -/
structure ResultRecord where
  test_type : String
  mode : String
  particles : Nat
  cycles : Nat
  run_times : List ℚ
deriving DecidableEq

/-- The padding `times = run_times + [None] * (3 - len(run_times))`
followed by the three indexings `times[0], times[1], times[2]`. -/
def padTimes (ts : List ℚ) : List Cell :=
  let padded := ts.map Cell.rat ++ List.replicate (3 - ts.length) Cell.absent
  [padded.getD 0 Cell.absent, padded.getD 1 Cell.absent,
    padded.getD 2 Cell.absent]

/-- The row written for one record, in the fixed column order of the
`writer.writerow([...])` call. -/
noncomputable def rowOf (r : ResultRecord) : List Cell :=
  [Cell.str r.mode, Cell.nat r.particles, Cell.nat r.cycles] ++
    padTimes r.run_times ++
    [Cell.rat (mean r.run_times), Cell.real (stdDev r.run_times)]

/-- The function `save_results` for one destination file: the records of the matching
test type are appended, in order, after whatever rows the file already
held (`open(..., 'a')`). -/
noncomputable def save_results_file (testType : String)
    (prior : List (List Cell)) (results : List ResultRecord) :
    List (List Cell) :=
  prior ++ (results.filter (fun r => r.test_type = testType)).map rowOf

/-! ## `stop_worker` (lines 96-109) and the try/finally of
`run_all_tests` (lines 362-376). -/

/-- How one worker handle ends when `stop_worker` reaches it:
`terminate()` then `wait(timeout=5)`; if the wait times out, `kill()`. -/
inductive HandleFinal where
  | exitedOnTerm
  | killed
deriving DecidableEq

/-- The per-handle stop path of `stop_worker`: graceful termination with
escalation to a forced kill, so the handle never stays running. -/
def stopHandle (h : WorkerHandle) : HandleFinal :=
  if h.respondsToTerm then .exitedOnTerm else .killed

/-- The function `stop_worker` on the pool attribute: when `worker_processes` was
never assigned (`none`) the `hasattr` guard skips the loop entirely
(safe no-op on handles); otherwise every handle is stopped in order and
the list is reset to `[]`.  Returns the new attribute value and the
stopped handles with how each ended. -/
def stop_worker (st : Option (List WorkerHandle)) :
    Option (List WorkerHandle) × List (WorkerHandle × HandleFinal) :=
  match st with
  | none => (none, [])
  | some hs => (some [], hs.map (fun h => (h, stopHandle h)))

/-- State threaded through a whole `run_all_tests` invocation: the
`worker_processes` attribute, plus two ghost logs — every handle ever
started, and every handle stopped (with how it ended).  The logs let the
no-leak property be stated. -/
structure RunState where
  pool : Option (List WorkerHandle)
  started : List WorkerHandle
  stopped : List (WorkerHandle × HandleFinal)

/-- The initial state of a `PerformanceTest` object: `worker_processes`
not yet assigned. -/
def initState : RunState := { pool := none, started := [], stopped := [] }

/-- The events the body of `run_all_tests` can perform that matter for
handle accounting: a pool start spawning some handles, a `stop_worker`
call (end of a distributed sweep, or `cleanup`), and an exception or
`KeyboardInterrupt` raised at that point. -/
inductive SweepEvent where
  | spawnWorkers (hs : List WorkerHandle)
  | poolStop
  | interrupt

/-- Effect of one event on the state; the boolean reports whether the
event raised (aborting the body). -/
def applyEvent (st : RunState) : SweepEvent → RunState × Bool
  | .spawnWorkers hs =>
      ({ pool := some ((st.pool.getD []) ++ hs),
         started := st.started ++ hs, stopped := st.stopped }, false)
  | .poolStop =>
      ({ pool := (stop_worker st.pool).1, started := st.started,
         stopped := st.stopped ++ (stop_worker st.pool).2 }, false)
  | .interrupt => (st, true)

/-- The try block's body: events run in order until the first raise. -/
def runBody (st : RunState) : List SweepEvent → RunState
  | [] => st
  | e :: es =>
      let r := applyEvent st e
      if r.2 then r.1 else runBody r.1 es

/-- The `finally` clause: `cleanup` = `stop_worker`. -/
def cleanup (st : RunState) : RunState :=
  { pool := (stop_worker st.pool).1, started := st.started,
    stopped := st.stopped ++ (stop_worker st.pool).2 }

/-- The function `run_all_tests` as the handle-accounting trace model: whatever the
body does and wherever it raises, the `finally` runs `cleanup`. -/
def run_all_tests (evs : List SweepEvent) : RunState :=
  cleanup (runBody initState evs)

/-! ## Concrete fixtures used to instantiate the theorems below. -/

/-- Spec scenario oracle: repetition times [10, 11, 9] at control value
500, [200, 205, 198] at 1000 (mean 201, over the 180 s budget), failure
everywhere else. -/
def scenarioOracle : Nat → Nat → Option ℚ := fun v r =>
  if v = 500 then
    if r = 0 then some 10 else if r = 1 then some 11 else some 9
  else if v = 1000 then
    if r = 0 then some 200 else if r = 1 then some 205 else some 198
  else none

/-- An oracle on which every repetition fails. -/
def allFailOracle : Nat → Nat → Option ℚ := fun _ _ => none

/-- Worker behaviour: the first spawned worker exits immediately. -/
def allDie : Nat → WorkerBehavior := fun _ => .diesEarly

/-- Worker behaviour: every spawn succeeds and survives its probe. -/
def allOk : Nat → WorkerBehavior := fun _ => .ok

/-- Worker behaviour: `Popen` raises on the first spawn. -/
def firstSpawnRaises : Nat → WorkerBehavior := fun _ => .spawnRaises

/-- A non-distributed mode string. -/
def sequentialMode : String := "sequential"

/-- The `test_type` tag of the fixed-particles sweep. -/
def fpType : String := "Fixed_Particles"

/-- A sample result record with only two of three successful runs. -/
def sampleRecord : ResultRecord :=
  { test_type := fpType, mode := distributedMode, particles := 3000,
    cycles := 500, run_times := [10, 11] }

/-- A stdout line carrying the marker and a plain token. -/
def markerLine : List Char := "Elapsed time: 7".data

/-- A captured stdout whose marker line carries a negative token. -/
def negOut : String := "Elapsed time: -1"

/-! ## Helper lemmas about the sweep loop. -/

/-- Every point of a sweep trace lies between the entry value and the
upper bound, is reached by whole increments from the entry value, and
carries exactly the successful times of its repetition loop. -/
theorem sweepTrace_mem {o : Nat → Nat → Option ℚ} {p : SweepPlan} :
    ∀ {fuel v : Nat} {q : Nat × List ℚ}, q ∈ sweepTrace o p fuel v →
      v ≤ q.1 ∧ q.1 ≤ p.upperBound ∧ (∃ k, q.1 = v + k * p.increment) ∧
        q.2 = runPoint o p.runs q.1 := by
  intro fuel
  induction fuel with
  | zero => intro v q hq; simp [sweepTrace] at hq
  | succ n ih =>
    intro v q hq
    rw [sweepTrace] at hq
    by_cases hv : v ≤ p.upperBound
    · rw [if_pos hv] at hq
      by_cases he : (runPoint o p.runs v).isEmpty
      · rw [if_pos he, List.mem_singleton] at hq
        subst hq
        exact ⟨le_refl v, hv, ⟨0, by simp⟩, rfl⟩
      · rw [if_neg he] at hq
        by_cases hb : p.budget < mean (runPoint o p.runs v)
        · rw [if_pos hb, List.mem_singleton] at hq
          subst hq
          exact ⟨le_refl v, hv, ⟨0, by simp⟩, rfl⟩
        · rw [if_neg hb, List.mem_cons] at hq
          rcases hq with hq | hq
          · subst hq
            exact ⟨le_refl v, hv, ⟨0, by simp⟩, rfl⟩
          · obtain ⟨h1, h2, ⟨k, hk⟩, h4⟩ := ih hq
            refine ⟨le_trans (Nat.le_add_right v p.increment) h1, h2,
              ⟨k + 1, ?_⟩, h4⟩
            rw [Nat.add_mul, Nat.one_mul]
            omega
    · rw [if_neg hv] at hq
      simp at hq

/-- The control values of a sweep trace are strictly increasing when the
increment is positive. -/
theorem sweepTrace_chain {o : Nat → Nat → Option ℚ} {p : SweepPlan}
    (hinc : 0 < p.increment) :
    ∀ (fuel v : Nat),
      List.Chain' (· < ·) ((sweepTrace o p fuel v).map Prod.fst) := by
  intro fuel
  induction fuel with
  | zero => intro v; simp [sweepTrace]
  | succ n ih =>
    intro v
    rw [sweepTrace]
    by_cases hv : v ≤ p.upperBound
    · rw [if_pos hv]
      by_cases he : (runPoint o p.runs v).isEmpty
      · simp [he]
      · rw [if_neg he]
        by_cases hb : p.budget < mean (runPoint o p.runs v)
        · simp [hb]
        · rw [if_neg hb]
          rw [List.map_cons]
          refine List.chain'_cons'.2 ⟨?_, ih (v + p.increment)⟩
          intro y hy
          have hmem : ∃ q ∈ sweepTrace o p n (v + p.increment), q.1 = y := by
            rcases List.mem_map.1 (List.mem_of_mem_head? hy) with ⟨q, hq, hqy⟩
            exact ⟨q, hq, hqy⟩
          rcases hmem with ⟨q, hq, rfl⟩
          have := (sweepTrace_mem hq).1
          omega
    · simp [if_neg hv]

/-- If a trace point satisfies one of the two break conditions (all runs
failed, or the mean exceeded the budget), it has the largest control
value in the trace: the loop broke there. -/
theorem sweepTrace_stop_max {o : Nat → Nat → Option ℚ} {p : SweepPlan} :
    ∀ {fuel v : Nat} {q : Nat × List ℚ}, q ∈ sweepTrace o p fuel v →
      (q.2.isEmpty = true ∨ p.budget < mean q.2) →
      ∀ q' ∈ sweepTrace o p fuel v, q'.1 ≤ q.1 := by
  intro fuel
  induction fuel with
  | zero => intro v q hq; simp [sweepTrace] at hq
  | succ n ih =>
    intro v q hq hstop q' hq'
    rw [sweepTrace] at hq hq'
    by_cases hv : v ≤ p.upperBound
    · rw [if_pos hv] at hq hq'
      by_cases he : (runPoint o p.runs v).isEmpty
      · rw [if_pos he, List.mem_singleton] at hq hq'
        rw [hq, hq']
      · rw [if_neg he] at hq hq'
        by_cases hb : p.budget < mean (runPoint o p.runs v)
        · rw [if_pos hb, List.mem_singleton] at hq hq'
          rw [hq, hq']
        · rw [if_neg hb, List.mem_cons] at hq hq'
          rcases hq with hq | hq
          · exfalso
            rw [hq] at hstop
            rcases hstop with hstop | hstop
            · exact he hstop
            · exact hb hstop
          · rcases hq' with hq' | hq'
            · have := (sweepTrace_mem hq).1
              rw [hq']
              omega
            · exact ih hq hstop q' hq'
    · rw [if_neg hv] at hq
      simp at hq

/-- A trace point that satisfies neither break condition and whose
successor value is still within the bound is followed by that successor
in the trace (the loop continued), provided the remaining fuel covers
the bound — which the top-level entry `sweep` always grants. -/
theorem sweepTrace_next {o : Nat → Nat → Option ℚ} {p : SweepPlan}
    (hinc : 0 < p.increment) :
    ∀ {fuel v : Nat} {q : Nat × List ℚ},
      p.upperBound + 1 ≤ fuel + v →
      q ∈ sweepTrace o p fuel v → q.2.isEmpty = false →
      ¬ p.budget < mean q.2 → q.1 + p.increment ≤ p.upperBound →
      (q.1 + p.increment, runPoint o p.runs (q.1 + p.increment)) ∈
        sweepTrace o p fuel v := by
  intro fuel
  induction fuel with
  | zero => intro v q _ hq; simp [sweepTrace] at hq
  | succ n ih =>
    intro v q hfuel hq hne hb hub
    rw [sweepTrace] at hq ⊢
    by_cases hv : v ≤ p.upperBound
    · rw [if_pos hv] at hq ⊢
      by_cases he : (runPoint o p.runs v).isEmpty
      · rw [if_pos he, List.mem_singleton] at hq
        exfalso
        rw [hq] at hne
        have h2 : (runPoint o p.runs v).isEmpty = false := hne
        rw [he] at h2
        cases h2
      · rw [if_neg he] at hq ⊢
        by_cases hbv : p.budget < mean (runPoint o p.runs v)
        · rw [if_pos hbv, List.mem_singleton] at hq
          exfalso
          apply hb
          rw [hq]
          exact hbv
        · rw [if_neg hbv] at hq ⊢
          rw [List.mem_cons] at hq
          rcases hq with hq | hq
          · have hqv : q.1 = v := by rw [hq]
            rw [List.mem_cons]
            right
            rw [hqv]
            rw [hqv] at hub
            obtain ⟨m, hm⟩ : ∃ m, n = m + 1 := ⟨n - 1, by omega⟩
            rw [hm, sweepTrace, if_pos hub]
            by_cases he2 : (runPoint o p.runs (v + p.increment)).isEmpty
            · rw [if_pos he2]; exact List.mem_singleton.2 rfl
            · rw [if_neg he2]
              by_cases hb2 :
                  p.budget < mean (runPoint o p.runs (v + p.increment))
              · rw [if_pos hb2]; exact List.mem_singleton.2 rfl
              · rw [if_neg hb2]; exact List.mem_cons_self _ _
          · rw [List.mem_cons]
            right
            exact ih (by omega) hq hne hb hub
    · rw [if_neg hv] at hq
      simp at hq

/-- The loop always records the point at its entry value when that value
is within bounds and any fuel remains: all three loop exits keep it. -/
theorem sweepTrace_here {o : Nat → Nat → Option ℚ} {p : SweepPlan}
    {fuel v : Nat} (hv : v ≤ p.upperBound) (hfuel : 0 < fuel) :
    (v, runPoint o p.runs v) ∈ sweepTrace o p fuel v := by
  obtain ⟨m, rfl⟩ : ∃ m, fuel = m + 1 := ⟨fuel - 1, by omega⟩
  rw [sweepTrace, if_pos hv]
  by_cases he : (runPoint o p.runs v).isEmpty
  · rw [if_pos he]; exact List.mem_singleton.2 rfl
  · rw [if_neg he]
    by_cases hb : p.budget < mean (runPoint o p.runs v)
    · rw [if_pos hb]; exact List.mem_singleton.2 rfl
    · rw [if_neg hb]; exact List.mem_cons_self _ _

/-- When the loop body at `v` takes neither break, everything the loop
produces from `v + increment` onwards is part of the trace from `v`. -/
theorem sweepTrace_step {o : Nat → Nat → Option ℚ} {p : SweepPlan}
    {fuel v : Nat} {q : Nat × List ℚ} (hv : v ≤ p.upperBound)
    (hne : (runPoint o p.runs v).isEmpty = false)
    (hb : ¬ p.budget < mean (runPoint o p.runs v))
    (hq : q ∈ sweepTrace o p fuel (v + p.increment)) :
    q ∈ sweepTrace o p (fuel + 1) v := by
  rw [sweepTrace, if_pos hv, if_neg (by rw [hne]; exact Bool.false_ne_true),
    if_neg hb]
  exact List.mem_cons_of_mem _ hq

/-- Every trace point with at least one successful time contributes the
corresponding summary to `self.results`. -/
theorem emitted_of_mem {trace : List (Nat × List ℚ)} {q : Nat × List ℚ}
    (hq : q ∈ trace) (hne : q.2.isEmpty = false) :
    (⟨q.1, q.2, mean q.2⟩ : Summary) ∈ emitted trace := by
  refine List.mem_filterMap.2 ⟨q, hq, ?_⟩
  rw [hne]
  simp

/-- Conversely, every emitted summary comes from a trace point with a
nonempty list of successful times. -/
theorem mem_of_emitted {trace : List (Nat × List ℚ)} {s : Summary}
    (hs : s ∈ emitted trace) :
    ∃ q ∈ trace, q.2.isEmpty = false ∧ s = ⟨q.1, q.2, mean q.2⟩ := by
  rcases List.mem_filterMap.1 hs with ⟨q, hq, hmk⟩
  by_cases he : q.2.isEmpty
  · rw [if_pos he] at hmk
    cases hmk
  · rw [if_neg he] at hmk
    cases hmk
    exact ⟨q, hq, by simpa using he, rfl⟩

/-- The script's `std_dev` (stdev guarded by `len(times) > 1 else 0`)
agrees with the spec's sample standard deviation formula on every list:
for two or more times the formulas coincide syntactically, and for zero
or one time the spec formula collapses to `Real.sqrt 0` as well. -/
theorem stdDev_eq_specSampleStdDev (ts : List ℚ) :
    stdDev ts = specSampleStdDev ts := by
  unfold stdDev specSampleStdDev sampleVar mean
  by_cases h : 1 < ts.length
  · rw [if_pos h]
  · rw [if_neg h]
    match ts with
    | [] => simp
    | [a] => simp
    | a :: b :: rest => exact absurd (by simp) h

/-- Anatomy of a successful `start_worker` loop: every worker spawned in
the remaining iterations survived its probe, and exactly the requested
number was appended. -/
theorem startWorkerAux_ok {beh : Nat → WorkerBehavior} :
    ∀ {n i : Nat} {acc pool : List WorkerHandle},
      startWorkerAux beh n i acc = .ok pool →
      pool.length = acc.length + n ∧
        ∀ w ∈ pool, w ∈ acc ∨ w.diedImmediately = false := by
  intro n
  induction n with
  | zero =>
    intro i acc pool h
    cases h
    exact ⟨rfl, fun w hw => Or.inl hw⟩
  | succ m ih =>
    intro i acc pool h
    rw [startWorkerAux] at h
    cases hb : beh i with
    | spawnRaises => rw [hb] at h; cases h
    | diesEarly => rw [hb] at h; cases h
    | ok =>
      rw [hb] at h
      obtain ⟨h1, h2⟩ := ih h
      constructor
      · rw [h1]; simp; omega
      · intro w hw
        rcases h2 w hw with hw2 | hw2
        · rcases List.mem_append.1 hw2 with hw3 | hw3
          · exact Or.inl hw3
          · right
            rw [List.mem_singleton] at hw3
            rw [hw3]
        · exact Or.inr hw2

/-- The slots `padTimes` really are the `None`-padded slot list whenever at most 3
repetitions succeeded (the script's `runs_per_config` is 3, so the
padding count `3 - len` is never negative in Python either). -/
theorem padTimes_eq {ts : List ℚ} (h : ts.length ≤ 3) :
    padTimes ts =
      ts.map Cell.rat ++ List.replicate (3 - ts.length) Cell.absent := by
  match ts with
  | [] => rfl
  | [a] => rfl
  | [a, b] => rfl
  | [a, b, c] => rfl
  | a :: b :: c :: d :: rest => simp at h

/-- The accounting invariant of the trace model: every handle ever
started is, as a multiset, either already stopped or still in the pool. -/
def handleInvariant (st : RunState) : Prop :=
  st.started.Perm (st.stopped.map Prod.fst ++ st.pool.getD [])

/-- The invariant holds initially. -/
theorem initState_inv : handleInvariant initState := by
  simp [handleInvariant, initState]

/-- Every event preserves the accounting invariant. -/
theorem applyEvent_inv {st : RunState} {e : SweepEvent}
    (h : handleInvariant st) : handleInvariant (applyEvent st e).1 := by
  cases e with
  | spawnWorkers hs =>
    unfold handleInvariant at h ⊢
    simp only [applyEvent]
    have := h.append_right hs
    simpa [List.append_assoc] using this
  | poolStop =>
    unfold handleInvariant at h ⊢
    simp only [applyEvent]
    cases hp : st.pool with
    | none => simpa [stop_worker, hp] using (by simpa [hp] using h)
    | some hs =>
      have h2 : st.started.Perm (st.stopped.map Prod.fst ++ hs) := by
        simpa [hp] using h
      simpa [stop_worker, hp, List.map_map, Function.comp_def] using h2
  | interrupt => exact h

/-- The whole body preserves the accounting invariant. -/
theorem runBody_inv {st : RunState} (h : handleInvariant st) :
    ∀ evs : List SweepEvent, handleInvariant (runBody st evs) := by
  intro evs
  induction evs generalizing st with
  | nil => exact h
  | cons e es ih =>
    rw [runBody]
    by_cases hr : (applyEvent st e).2
    · rw [if_pos hr]; exact applyEvent_inv h
    · rw [if_neg hr]; exact ih (applyEvent_inv h)

/-- After `cleanup` the pool is empty (or still unset) and the invariant
collapses: started handles and stopped handles coincide as multisets. -/
theorem cleanup_closes {st : RunState} (h : handleInvariant st) :
    ((cleanup st).pool = none ∨ (cleanup st).pool = some []) ∧
      (cleanup st).started.Perm ((cleanup st).stopped.map Prod.fst) := by
  unfold handleInvariant at h
  unfold cleanup
  cases hp : st.pool with
  | none =>
    refine ⟨Or.inl (by simp [stop_worker]), ?_⟩
    simpa [stop_worker, hp] using (by simpa [hp] using h)
  | some hs =>
    refine ⟨Or.inr (by simp [stop_worker]), ?_⟩
    have h2 : st.started.Perm (st.stopped.map Prod.fst ++ hs) := by
      simpa [hp] using h
    simpa [stop_worker, hp, List.map_map, Function.comp_def] using h2

/-- When no captured line contains the elapsed-time marker, the scan
falls through the whole loop and `run_simulation` returns `None`. -/
theorem extractFromLines_no_marker : ∀ {ls : List (List Char)},
    (∀ l ∈ ls, containsMarker l = false) → extractFromLines ls = none := by
  intro ls
  induction ls with
  | nil => intro _; rfl
  | cons l rest ih =>
    intro h
    have hl : containsMarker l = false := h l (List.mem_cons_self _ _)
    simp only [extractFromLines, hl, Bool.false_eq_true, if_false]
    exact ih (fun l2 hl2 => h l2 (List.mem_cons_of_mem _ hl2))

/-- The first line containing the marker decides the whole extraction:
earlier lines are skipped, later lines are never consulted, and the
result is the `float` of the first whitespace token after the marker
(or `None` when that token is missing or unparsable). -/
theorem extractFromLines_first_marker : ∀ {pre : List (List Char)}
    {l : List Char} {post : List (List Char)},
    (∀ l2 ∈ pre, containsMarker l2 = false) → containsMarker l = true →
    extractFromLines (pre ++ l :: post) =
      ((splitOnList markerChars l).get? 1).bind (fun afterMarker =>
        ((pySplit (pyStrip afterMarker)).head?).bind pyFloat) := by
  intro pre
  induction pre with
  | nil =>
    intro l post _ hm
    rw [List.nil_append]
    simp only [extractFromLines, hm, if_true]
    cases hg : (splitOnList markerChars l).get? 1 with
    | none => rfl
    | some a =>
      cases hh : (pySplit (pyStrip a)).head? with
      | none => simp [hh]
      | some tok => simp [hh]
  | cons l2 rest ih =>
    intro l post h hm
    have hl2 : containsMarker l2 = false := h l2 (List.mem_cons_self _ _)
    rw [List.cons_append]
    simp only [extractFromLines, hl2, Bool.false_eq_true, if_false]
    exact ih (fun x hx => h x (List.mem_cons_of_mem _ hx)) hm

/-- The digits-and-point part of the parser only produces non-negative
values when given the positive sign. -/
theorem pyFloatBody_one_nonneg {body : List Char} {x : ℚ}
    (h : pyFloatBody 1 body = some x) : 0 ≤ x := by
  unfold pyFloatBody at h
  split at h
  · split at h
    · cases h
    · cases h
      rw [one_mul]
      simp [digitsVal]
  · split at h
    · split at h
      · cases h
        rw [one_mul]
        refine add_nonneg (by simp [digitsVal]) (div_nonneg (by simp [digitsVal])
          (pow_nonneg (by norm_num) _))
      · cases h
    · cases h

/-- The parsed value of a token that does not start with a minus sign is
non-negative (no sign check happens downstream: a minus token yields its
negative value verbatim). -/
theorem pyFloat_nonneg : ∀ {cs : List Char} {x : ℚ}, pyFloat cs = some x →
    cs.head? ≠ some '-' → 0 ≤ x := by
  intro cs x hx hhead
  have hsign : (pyFloatSign cs).1 = 1 := by
    rcases cs with _ | ⟨c, rest⟩
    · rfl
    · have hc : ¬ c = '-' := fun hcc => hhead (by rw [hcc]; rfl)
      by_cases hp : c = '+'
      · simp [pyFloatSign, hc, hp]
      · simp [pyFloatSign, hc, hp]
  unfold pyFloat at hx
  rw [hsign] at hx
  exact pyFloatBody_one_nonneg hx

/-! ## Claim theorems. -/

/-- C1: for every sweep point at which at least one repetition succeeds,
if the computed mean of the successful times exceeds the configured
runtime budget, the sweep loop emits that point's summary record and
then breaks: no control value larger than the current one is ever
evaluated. -/
theorem c1_budget_stop_emits_then_halts {o : Nat → Nat → Option ℚ}
    {p : SweepPlan} {q : Nat × List ℚ} (hq : q ∈ sweep o p)
    (hne : q.2.isEmpty = false) (hb : p.budget < mean q.2) :
    (⟨q.1, q.2, mean q.2⟩ : Summary) ∈ emitted (sweep o p) ∧
      ∀ q' ∈ sweep o p, q'.1 ≤ q.1 :=
  ⟨emitted_of_mem hq hne, sweepTrace_stop_max hq (Or.inr hb)⟩

/-- Witness for C1 on the fixed-particles plan with the spec's scenario
oracle: repetition times [10, 11, 9] at 500 and [200, 205, 198] at 1000,
whose mean 201 exceeds the 180 s budget. -/
theorem c1_budget_stop_emits_then_halts_witness :
    ((1000, [(200 : ℚ), 205, 198]) ∈ sweep scenarioOracle FIXED_PARTICLES_TEST) ∧
    ([(200 : ℚ), 205, 198].isEmpty = false) ∧
    (FIXED_PARTICLES_TEST.budget < mean [(200 : ℚ), 205, 198]) ∧
    ((⟨1000, [(200 : ℚ), 205, 198], mean [(200 : ℚ), 205, 198]⟩ : Summary) ∈
        emitted (sweep scenarioOracle FIXED_PARTICLES_TEST) ∧
      ∀ q' ∈ sweep scenarioOracle FIXED_PARTICLES_TEST, q'.1 ≤ 1000) := by
  have hmem : (1000, [(200 : ℚ), 205, 198]) ∈
      sweep scenarioOracle FIXED_PARTICLES_TEST := by
    show (1000, [(200 : ℚ), 205, 198]) ∈ sweepTrace scenarioOracle
      FIXED_PARTICLES_TEST (FIXED_PARTICLES_TEST.upperBound + 1)
      FIXED_PARTICLES_TEST.start
    apply sweepTrace_step (by decide) (by decide)
      (by
        have h : runPoint scenarioOracle FIXED_PARTICLES_TEST.runs
            FIXED_PARTICLES_TEST.start = [10, 11, 9] := by decide
        rw [h]
        norm_num [mean, FIXED_PARTICLES_TEST])
    have hv : FIXED_PARTICLES_TEST.start + FIXED_PARTICLES_TEST.increment =
        1000 := by decide
    rw [hv]
    have h2 : runPoint scenarioOracle FIXED_PARTICLES_TEST.runs 1000 =
        [200, 205, 198] := by decide
    have h3 := @sweepTrace_here scenarioOracle FIXED_PARTICLES_TEST
      FIXED_PARTICLES_TEST.upperBound 1000 (by decide) (by decide)
    rw [h2] at h3
    exact h3
  have hb : FIXED_PARTICLES_TEST.budget < mean [(200 : ℚ), 205, 198] := by
    norm_num [mean, FIXED_PARTICLES_TEST]
  exact ⟨hmem, rfl, hb, c1_budget_stop_emits_then_halts hmem rfl hb⟩

/-- C2 (amended): at a sweep point where all repetitions fail, the loop
breaks at once — no larger control value is evaluated — but it emits NO
summary record for that point (nothing is appended to `self.results`,
and records carry no success flag at all); the claim's "emits a summary
with success flag = false" does not hold. -/
theorem c2_allfail_stops_without_record {o : Nat → Nat → Option ℚ}
    {p : SweepPlan} {v : Nat} (hv : (v, ([] : List ℚ)) ∈ sweep o p) :
    (∀ q' ∈ sweep o p, q'.1 ≤ v) ∧
      ∀ s ∈ emitted (sweep o p), s.value ≠ v := by
  refine ⟨fun q' hq' => sweepTrace_stop_max hv (Or.inl rfl) q' hq', ?_⟩
  intro s hs hsv
  obtain ⟨q, hq, hne, rfl⟩ := mem_of_emitted hs
  have hqv : q.1 = v := hsv
  obtain ⟨_, _, _, h4⟩ := sweepTrace_mem hq
  obtain ⟨_, _, _, h4v⟩ := sweepTrace_mem hv
  have h4v2 : ([] : List ℚ) = runPoint o p.runs v := h4v
  rw [hqv, ← h4v2] at h4
  rw [h4] at hne
  cases hne

/-- Witness for the amended C2: with every repetition failing, the first
point of the fixed-particles plan is an all-failed point. -/
theorem c2_allfail_stops_without_record_witness :
    ((500, ([] : List ℚ)) ∈ sweep allFailOracle FIXED_PARTICLES_TEST) ∧
    ((∀ q' ∈ sweep allFailOracle FIXED_PARTICLES_TEST, q'.1 ≤ 500) ∧
      ∀ s ∈ emitted (sweep allFailOracle FIXED_PARTICLES_TEST),
        s.value ≠ 500) := by
  have hmem : (500, ([] : List ℚ)) ∈ sweep allFailOracle FIXED_PARTICLES_TEST :=
    by decide
  exact ⟨hmem, c2_allfail_stops_without_record hmem⟩

/-- C2 counterexample (refuting the claim as stated): when all three
repetitions fail at the first control value of the fixed-particles plan,
the loop evaluates that point and stops, yet the list of emitted summary
records is empty — no record, with any flag, is emitted for the
all-failed point. -/
theorem c2_counterexample :
    sweep allFailOracle FIXED_PARTICLES_TEST = [(500, [])] ∧
      emitted (sweep allFailOracle FIXED_PARTICLES_TEST) = [] := by
  have h : sweep allFailOracle FIXED_PARTICLES_TEST = [(500, [])] := by decide
  refine ⟨h, ?_⟩
  rw [h]
  rfl

/-- C3 (amended): if any worker exits immediately during a pool start,
`start_worker` aborts (returning `False` with the dead worker still
recorded in `worker_processes`) and the `run_simulation` call that
triggered the start returns a failure outcome without launching the
master driver; a successful pool start always holds exactly 4 workers,
all alive past their probes.  However the failed pool is NOT cleared, so
the claim's "no subsequent distributed trial uses it" fails — see the
counterexample. -/
theorem c3_failed_start_aborts_current_call (beh : Nat → WorkerBehavior)
    (driver : DriverResult) :
    (∀ pool, start_worker beh = .failed pool →
      runSimDistributed none beh driver = .returned none (some pool) false) ∧
    (∀ pool, start_worker beh = .ok pool →
      pool.length = 4 ∧ ∀ w ∈ pool, w.diedImmediately = false) := by
  constructor
  · intro pool hfail
    simp [runSimDistributed, hfail]
  · intro pool hok
    obtain ⟨h1, h2⟩ := startWorkerAux_ok hok
    refine ⟨by simpa using h1, ?_⟩
    intro w hw
    rcases h2 w hw with hw2 | hw2
    · cases hw2
    · exact hw2

/-- Witness for the amended C3: with every worker dying at its probe the
start fails after the first worker; with every spawn healthy the pool
reaches size 4. -/
theorem c3_failed_start_aborts_current_call_witness :
    (start_worker allDie = .failed [⟨true, true⟩]) ∧
    (start_worker allOk =
      .ok [⟨false, true⟩, ⟨false, true⟩, ⟨false, true⟩, ⟨false, true⟩]) ∧
    (runSimDistributed none allDie .timedOut =
      .returned none (some [⟨true, true⟩]) false) ∧
    (([⟨false, true⟩, ⟨false, true⟩, ⟨false, true⟩, ⟨false, true⟩] :
      List WorkerHandle).length = 4) := by
  refine ⟨by decide, by decide, ?_, ?_⟩
  · exact (c3_failed_start_aborts_current_call allDie .timedOut).1 _ (by decide)
  · exact ((c3_failed_start_aborts_current_call allOk .timedOut).2 _
      (by decide)).1

/-- C3 counterexample (refuting the claim as stated): after a failed
pool start, `worker_processes` is nonempty (it retains the dead worker),
so the next distributed `run_simulation` call does not re-check or fail:
it launches the master driver against the incomplete pool
(`launchedDriver = true`), contradicting "no subsequent distributed
trial uses it". -/
theorem c3_counterexample :
    runSimDistributed none allDie .timedOut =
      .returned none (some [⟨true, true⟩]) false ∧
    runSimDistributed (some [⟨true, true⟩]) allDie .timedOut =
      .returned none (some [⟨true, true⟩]) true := by decide

/-- C4: for every plan with positive increment, the control values the
sweep evaluates are strictly increasing, each is `start + k·increment`,
none exceeds the upper bound, and the successful times at each point are
those of repetition indices `0, 1, ..., runs-1` scanned in that order. -/
theorem c4_values_increasing_bounded {o : Nat → Nat → Option ℚ}
    {p : SweepPlan} (hinc : 0 < p.increment) :
    List.Chain' (· < ·) ((sweep o p).map Prod.fst) ∧
      ∀ q ∈ sweep o p, (∃ k, q.1 = p.start + k * p.increment) ∧
        q.1 ≤ p.upperBound ∧
        q.2 = (List.range p.runs).filterMap (o q.1) := by
  refine ⟨sweepTrace_chain hinc _ _, ?_⟩
  intro q hq
  obtain ⟨_, h2, h3, h4⟩ := sweepTrace_mem hq
  exact ⟨h3, h2, h4⟩

/-- Witness for C4 at the fixed-particles plan and the scenario
oracle. -/
theorem c4_values_increasing_bounded_witness :
    0 < FIXED_PARTICLES_TEST.increment ∧
    (List.Chain' (· < ·)
        ((sweep scenarioOracle FIXED_PARTICLES_TEST).map Prod.fst) ∧
      ∀ q ∈ sweep scenarioOracle FIXED_PARTICLES_TEST,
        (∃ k, q.1 = FIXED_PARTICLES_TEST.start +
          k * FIXED_PARTICLES_TEST.increment) ∧
        q.1 ≤ FIXED_PARTICLES_TEST.upperBound ∧
        q.2 = (List.range FIXED_PARTICLES_TEST.runs).filterMap
          (scenarioOracle q.1)) :=
  ⟨by decide, c4_values_increasing_bounded (by decide)⟩

/-- C5: every emitted summary's `average_time` is the arithmetic mean of
its successful times, its `std_dev` equals the sample standard deviation
of those times, and `std_dev` is exactly 0 when only one repetition
succeeded. -/
theorem c5_mean_and_stdev {o : Nat → Nat → Option ℚ} {p : SweepPlan}
    {s : Summary} (hs : s ∈ emitted (sweep o p)) :
    s.average_time = s.run_times.sum / s.run_times.length ∧
      stdDev s.run_times = specSampleStdDev s.run_times ∧
      (s.run_times.length = 1 → stdDev s.run_times = 0) := by
  obtain ⟨q, hq, hne, rfl⟩ := mem_of_emitted hs
  refine ⟨rfl, stdDev_eq_specSampleStdDev _, ?_⟩
  intro h1
  unfold stdDev
  rw [if_neg (by omega)]

/-- Witness for C5: the summary emitted at control value 500 for the
scenario oracle. -/
theorem c5_mean_and_stdev_witness :
    ((⟨500, [(10 : ℚ), 11, 9], mean [(10 : ℚ), 11, 9]⟩ : Summary) ∈
      emitted (sweep scenarioOracle FIXED_PARTICLES_TEST)) ∧
    (mean [(10 : ℚ), 11, 9] = ([(10 : ℚ), 11, 9].sum /
      ([(10 : ℚ), 11, 9] : List ℚ).length) ∧
      stdDev [(10 : ℚ), 11, 9] = specSampleStdDev [(10 : ℚ), 11, 9] ∧
      (([(10 : ℚ), 11, 9] : List ℚ).length = 1 →
        stdDev [(10 : ℚ), 11, 9] = 0)) := by
  have hmem : (500, [(10 : ℚ), 11, 9]) ∈
      sweep scenarioOracle FIXED_PARTICLES_TEST := by
    show (500, [(10 : ℚ), 11, 9]) ∈ sweepTrace scenarioOracle
      FIXED_PARTICLES_TEST (FIXED_PARTICLES_TEST.upperBound + 1)
      FIXED_PARTICLES_TEST.start
    have h : runPoint scenarioOracle FIXED_PARTICLES_TEST.runs
        FIXED_PARTICLES_TEST.start = [10, 11, 9] := by decide
    have h3 := @sweepTrace_here scenarioOracle FIXED_PARTICLES_TEST
      (FIXED_PARTICLES_TEST.upperBound + 1) FIXED_PARTICLES_TEST.start
      (by decide) (by decide)
    rw [h] at h3
    exact h3
  have hs : (⟨500, [(10 : ℚ), 11, 9], mean [(10 : ℚ), 11, 9]⟩ : Summary) ∈
      emitted (sweep scenarioOracle FIXED_PARTICLES_TEST) :=
    emitted_of_mem hmem rfl
  exact ⟨hs, c5_mean_and_stdev hs⟩

/-- C6: a repetition that times out or exits nonzero yields a `None`
outcome (a failed repetition) only; the repetition loop still attempts
every index, and when at least one repetition at a value succeeds and
the success-mean is within budget, the loop proceeds to the next control
value (within the plan's upper bound) instead of stopping. -/
theorem c6_single_failure_tolerated {o : Nat → Nat → Option ℚ}
    {p : SweepPlan} (hinc : 0 < p.increment) {q : Nat × List ℚ}
    (hq : q ∈ sweep o p) :
    run_simulation_outcome .timedOut = none ∧
    (∀ rc : Int, ∀ out : String, rc ≠ 0 →
      run_simulation_outcome (.exited rc out) = none) ∧
    q.2 = (List.range p.runs).filterMap (o q.1) ∧
    (q.2.isEmpty = false → ¬ p.budget < mean q.2 →
      q.1 + p.increment ≤ p.upperBound →
      (q.1 + p.increment, runPoint o p.runs (q.1 + p.increment)) ∈
        sweep o p) := by
  refine ⟨rfl, ?_, (sweepTrace_mem hq).2.2.2, ?_⟩
  · intro rc out hrc
    show (if rc ≠ 0 then none else extractElapsed out) = none
    rw [if_pos hrc]
  · intro hne hb hub
    exact sweepTrace_next hinc (Nat.le_add_right _ _) hq hne hb hub

/-- Witness for C6 at the scenario oracle: the point at 500 has a
failure-free continuation to 1000. -/
theorem c6_single_failure_tolerated_witness :
    (0 < FIXED_PARTICLES_TEST.increment) ∧
    ((500, [(10 : ℚ), 11, 9]) ∈ sweep scenarioOracle FIXED_PARTICLES_TEST) ∧
    (run_simulation_outcome .timedOut = none ∧
      (∀ rc : Int, ∀ out : String, rc ≠ 0 →
        run_simulation_outcome (.exited rc out) = none) ∧
      [(10 : ℚ), 11, 9] =
        (List.range FIXED_PARTICLES_TEST.runs).filterMap (scenarioOracle 500) ∧
      (([(10 : ℚ), 11, 9] : List ℚ).isEmpty = false →
        ¬ FIXED_PARTICLES_TEST.budget < mean [(10 : ℚ), 11, 9] →
        500 + FIXED_PARTICLES_TEST.increment ≤
          FIXED_PARTICLES_TEST.upperBound →
        (500 + FIXED_PARTICLES_TEST.increment,
          runPoint scenarioOracle FIXED_PARTICLES_TEST.runs
            (500 + FIXED_PARTICLES_TEST.increment)) ∈
          sweep scenarioOracle FIXED_PARTICLES_TEST)) := by
  have hmem : (500, [(10 : ℚ), 11, 9]) ∈
      sweep scenarioOracle FIXED_PARTICLES_TEST := by
    show (500, [(10 : ℚ), 11, 9]) ∈ sweepTrace scenarioOracle
      FIXED_PARTICLES_TEST (FIXED_PARTICLES_TEST.upperBound + 1)
      FIXED_PARTICLES_TEST.start
    have h : runPoint scenarioOracle FIXED_PARTICLES_TEST.runs
        FIXED_PARTICLES_TEST.start = [10, 11, 9] := by decide
    have h3 := @sweepTrace_here scenarioOracle FIXED_PARTICLES_TEST
      (FIXED_PARTICLES_TEST.upperBound + 1) FIXED_PARTICLES_TEST.start
      (by decide) (by decide)
    rw [h] at h3
    exact h3
  exact ⟨by decide, hmem, c6_single_failure_tolerated (by decide) hmem⟩

/-- C7: in the trace model of `run_all_tests`, whatever the body does and
wherever an exception or interruption strikes, after the `finally`
cleanup the worker list is empty (or still unset) and the handles ever
started are exactly the handles stopped; moreover `stop_worker` is a
safe no-op when the pool was never started, and each stopped handle
either exited on `terminate()` or was force-killed after the 5 s grace
wait — it never stays running. -/
theorem c7_no_handle_leak (evs : List SweepEvent) (d : Bool) :
    ((run_all_tests evs).pool = none ∨ (run_all_tests evs).pool = some []) ∧
    (run_all_tests evs).started.Perm
      ((run_all_tests evs).stopped.map Prod.fst) ∧
    stop_worker none = (none, []) ∧
    stopHandle ⟨d, true⟩ = .exitedOnTerm ∧
    stopHandle ⟨d, false⟩ = .killed := by
  have h := cleanup_closes (runBody_inv initState_inv evs)
  exact ⟨h.1, h.2, rfl, rfl, rfl⟩

/-- C8 (amended): on a zero-exit trial the scanner returns the value of
the first marker line's token parsed by `float` — whatever its sign: no
non-negativity check is performed, so the result is non-negative exactly
when the token is unsigned — and it returns `None` when no line contains
the marker or the token after the first marker is missing/unparsable. -/
theorem c8_marker_scan (pre post : List (List Char)) (l : List Char) :
    ((∀ l2 ∈ pre ++ l :: post, containsMarker l2 = false) →
      extractFromLines (pre ++ l :: post) = none) ∧
    ((∀ l2 ∈ pre, containsMarker l2 = false) → containsMarker l = true →
      extractFromLines (pre ++ l :: post) =
        ((splitOnList markerChars l).get? 1).bind (fun afterMarker =>
          ((pySplit (pyStrip afterMarker)).head?).bind pyFloat)) ∧
    (∀ cs : List Char, ∀ x : ℚ, pyFloat cs = some x →
      cs.head? ≠ some '-' → 0 ≤ x) :=
  ⟨fun h => extractFromLines_no_marker h,
   fun h hm => extractFromLines_first_marker h hm,
   fun _ _ hx hh => pyFloat_nonneg hx hh⟩

/-- Witness for the amended C8: a one-line stdout carrying the marker is
resolved to the parse of its token. -/
theorem c8_marker_scan_witness :
    (containsMarker markerLine = true) ∧
    extractFromLines ([] ++ markerLine :: []) =
      ((splitOnList markerChars markerLine).get? 1).bind (fun afterMarker =>
        ((pySplit (pyStrip afterMarker)).head?).bind pyFloat) :=
  ⟨by decide, (c8_marker_scan [] [] markerLine).2.1
    (fun l2 hl2 => absurd hl2 (List.not_mem_nil l2)) (by decide)⟩

/-- C8 counterexample (refuting the non-negativity part of the claim as
stated): a zero-exit trial whose stdout reads "Elapsed time: -1" is
returned as the measured value -1, which is negative — the scanner
performs no sign check on the parsed token. -/
theorem c8_counterexample :
    extractElapsed negOut = some (-1) ∧ ((-1 : ℚ) < 0) := by
  constructor
  · norm_num +decide [extractElapsed, negOut, extractFromLines, containsMarker,
      splitOnList, splitOnListAux, splitOnChar, leadsWith, markerChars,
      pySplit, pyStrip, splitByPred, pyFloat, pyFloatSign, pyFloatBody,
      digitsVal, (by decide : digitsNat ['1'] = 1)]
  · norm_num

/-- C9: `save_results` appends to the destination — every row present
before the call survives it unchanged, the new rows follow them in
order — and each written row has the fixed column layout
`mode, particles, cycles, run_time_1..3 (padded with the absent-value
marker when fewer than 3 repetitions succeeded), average_time,
std_dev`. -/
theorem c9_append_and_schema (testType : String) (prior : List (List Cell))
    (rs : List ResultRecord) :
    (save_results_file testType prior rs).take prior.length = prior ∧
    (save_results_file testType prior rs).drop prior.length =
      (rs.filter (fun r => r.test_type = testType)).map rowOf ∧
    ∀ r : ResultRecord, r.run_times.length ≤ 3 →
      rowOf r =
        [Cell.str r.mode, Cell.nat r.particles, Cell.nat r.cycles] ++
          (r.run_times.map Cell.rat ++
            List.replicate (3 - r.run_times.length) Cell.absent) ++
          [Cell.rat (mean r.run_times), Cell.real (stdDev r.run_times)] := by
  refine ⟨List.take_left _ _, List.drop_left _ _, ?_⟩
  intro r h
  unfold rowOf
  rw [padTimes_eq h]

/-- Witness for C9 on a record with two successful runs: its row gets
one absent-value slot. -/
theorem c9_append_and_schema_witness :
    (sampleRecord.run_times.length ≤ 3) ∧
    rowOf sampleRecord =
      [Cell.str sampleRecord.mode, Cell.nat sampleRecord.particles,
        Cell.nat sampleRecord.cycles] ++
        (sampleRecord.run_times.map Cell.rat ++
          List.replicate (3 - sampleRecord.run_times.length) Cell.absent) ++
        [Cell.rat (mean sampleRecord.run_times),
          Cell.real (stdDev sampleRecord.run_times)] :=
  ⟨by decide, (c9_append_and_schema fpType [] [sampleRecord]).2.2
    sampleRecord (by decide)⟩

/-- C10 (amended): `run_simulation` absorbs every failure inside its try
block into a `None` return — timeout, launch exception of the driver,
nonzero exit, and (on zero exit) a missing or unparsable marker — and a
cleanly failed worker-pool start also returns `None`; for non-distributed
modes and for distributed mode with a nonempty recorded pool the call
always returns.  The one escaping path, refuting "no exception escapes":
the worker-spawn `Popen` calls of `start_worker` sit outside the try
block, so an exception there propagates out of `run_simulation`. -/
theorem c10_interface (beh : Nat → WorkerBehavior)
    (st : Option (List WorkerHandle)) :
    (∀ mode : String, mode ≠ distributedMode → ∀ d : DriverResult,
      run_simulation mode st beh d =
        .returned (run_simulation_outcome d) st true) ∧
    run_simulation_outcome .timedOut = none ∧
    run_simulation_outcome .launchError = none ∧
    (∀ rc : Int, ∀ out : String, rc ≠ 0 →
      run_simulation_outcome (.exited rc out) = none) ∧
    (∀ out : String, run_simulation_outcome (.exited 0 out) =
      extractElapsed out) ∧
    (∀ w : WorkerHandle, ∀ procs : List WorkerHandle, ∀ d : DriverResult,
      run_simulation distributedMode (some (w :: procs)) beh d =
        .returned (run_simulation_outcome d) (some (w :: procs)) true) ∧
    (∀ pool, start_worker beh = .failed pool → ∀ d : DriverResult,
      run_simulation distributedMode none beh d =
        .returned none (some pool) false) ∧
    (∀ pool, start_worker beh = .raised pool → ∀ d : DriverResult,
      run_simulation distributedMode none beh d = .raised (some pool)) := by
  refine ⟨?_, rfl, rfl, ?_, fun out => rfl, ?_, ?_, ?_⟩
  · intro mode hm d
    simp [run_simulation, hm]
  · intro rc out hrc
    show (if rc ≠ 0 then none else extractElapsed out) = none
    rw [if_pos hrc]
  · intro w procs d
    simp [run_simulation, runSimDistributed]
  · intro pool hfail d
    simp [run_simulation, runSimDistributed, hfail]
  · intro pool hraise d
    simp [run_simulation, runSimDistributed, hraise]

/-- Witness for the amended C10: a sequential-mode timeout and a cleanly
failed distributed pool start both come back as `None` returns. -/
theorem c10_interface_witness :
    (sequentialMode ≠ distributedMode) ∧
    (start_worker allDie = .failed [⟨true, true⟩]) ∧
    run_simulation sequentialMode none allDie .timedOut =
      .returned none none true ∧
    run_simulation distributedMode none allDie .timedOut =
      .returned none (some [⟨true, true⟩]) false := by
  obtain ⟨h1, _, _, _, _, _, h7, _⟩ := c10_interface allDie none
  exact ⟨by decide, by decide, h1 sequentialMode (by decide) .timedOut,
    h7 _ (by decide) .timedOut⟩

/-- C10 counterexample (refuting totality as claimed): in distributed
mode with no pool recorded, a spawn exception inside `start_worker`
escapes `run_simulation` instead of being absorbed into a `None`
return. -/
theorem c10_counterexample :
    run_simulation distributedMode none firstSpawnRaises .timedOut =
      .raised (some []) := by decide

end PerfTest
